import Mathlib

/-!
# Verification of the roidjs named-cell registry and injection layer

Shallow embedding of `src/index.jsx` (the exported module of the roidjs
repository).  JavaScript values are modelled by an inductive `Value`
(including the `undefined` and `null` sentinels), JS objects used as maps
(`atoms`, `$`, `setters`, `updated`, the Recoil store) by association lists
over `String` keys, and the Recoil engine by the minimal contract the spec
assigns to it (per-scope value stores, leaf atoms read the store entry or
fall back to the default).

Definitions follow the source line by line; line numbers in doc comments
refer to `src/index.jsx`.
-/

set_option autoImplicit false

namespace Roidjs

/-- A JavaScript runtime value, as far as the library inspects them:
`undefined`, `null`, numbers, strings, booleans, and opaque object
references (identified by a tag). -/
inductive Value where
  | undefinedV : Value
  | null : Value
  | num : Int → Value
  | str : String → Value
  | bool : Bool → Value
  | obj : Nat → Value
  deriving DecidableEq, Repr

/-- JS truthiness of a value (`undefined`, `null`, `0`, `""`, `false` are
falsy; objects are truthy).  NaN is not modelled. -/
def truthy : Value → Bool
  | .undefinedV => false
  | .null => false
  | .num n => n != 0
  | .str s => s ≠ ""
  | .bool b => b
  | .obj _ => true

/-- `is(String)(v)` from ramda: is the value a string? -/
def isString : Value → Bool
  | .str _ => true
  | _ => false

/-- The property key a value coerces to when used in `atoms[v]`
(JS property access stringifies the index). -/
def toPropKey : Value → String
  | .str s => s
  | .null => "null"
  | .undefinedV => "undefined"
  | .num n => toString n
  | .bool b => if b then "true" else "false"
  | .obj _ => "[object Object]"

/-- JS logical-or `a || b`: `a` if truthy, else `b`. -/
def jsOr (a b : Value) : Value := if truthy a then a else b

/-- The fresh empty object literal `{}` (line 81). -/
def emptyObj : Value := Value.obj 0

/-! ## Association lists modelling JS objects used as string-keyed maps -/

/-- Lookup in a string-keyed association list (JS property read). -/
def lookupA {α : Type} : List (String × α) → String → Option α
  | [], _ => none
  | (k, v) :: rest, q => if q = k then some v else lookupA rest q

/-- Insert-or-replace in a string-keyed association list
(JS property assignment `m[k] = v`). -/
def upsertA {α : Type} : List (String × α) → String → α → List (String × α)
  | [], q, v => [(q, v)]
  | (k, w) :: rest, q, v =>
      if q = k then (q, v) :: rest else (k, w) :: upsertA rest q v

theorem lookupA_upsertA {α : Type} (m : List (String × α)) (k q : String) (v : α) :
    lookupA (upsertA m k v) q = if q = k then some v else lookupA m q := by
  induction m with
  | nil =>
      by_cases h : q = k <;> simp [upsertA, lookupA, h]
  | cons p rest ih =>
      obtain ⟨k', w⟩ := p
      by_cases hk : k = k'
      · subst hk
        by_cases h : q = k <;> simp [upsertA, lookupA, h]
      · by_cases h : q = k'
        · subst h
          simp [upsertA, lookupA, hk, Ne.symm hk]
        · simp only [upsertA, lookupA, hk, h, if_neg, ite_false, if_false]
          by_cases h2 : q = k
          · subst h2; simp [ih]
          · simp [h2, ih]

/-- JS read `m[k]` on an object used as a map: `undefined` when absent. -/
def jsIndex (m : List (String × Value)) (k : String) : Value :=
  (lookupA m k).getD .undefinedV

/-! ## Cell descriptors and the process-wide registry -/

/-- A derivation function stored in a spec's `get` field.  `orig id` is an
original caller-supplied closure (opaque, identified by a tag); `wrapped g`
is the closure built at lines 49-53, which wraps the previous value of the
field. -/
inductive GetFn where
  | orig : Nat → GetFn
  | wrapped : GetFn → GetFn
  deriving DecidableEq, Repr

/-- A Recoil cell descriptor held in the module-level `atoms` object:
`leaf key default` is `atom({key, default})`; `computed key g` is
`selector({key, get: g, ...})`. -/
inductive Atom where
  | leaf : String → Value → Atom
  | computed : String → GetFn → Atom
  deriving DecidableEq, Repr

/-- The Recoil key a descriptor was created with. -/
def Atom.key : Atom → String
  | .leaf k _ => k
  | .computed k _ => k

/-- The module-level `atoms` object (line 14): a process-wide map from
string key to cell descriptor. -/
abbrev Registry : Type := List (String × Atom)

/-- An object entry of the `inject` spec array.  Fields are optional to
model property presence (`has("get")(v)`, `has("id")(v)` from ramda). -/
structure EntryObj where
  key : String
  dflt : Option Value := none
  getf : Option GetFn := none
  id : Option Value := none
  deriving DecidableEq, Repr

/-- One element of the array passed to `inject`: a plain string key or a
spec object. -/
inductive Entry where
  | strKey : String → Entry
  | objEntry : EntryObj → Entry
  deriving DecidableEq, Repr

/-- Per-entry outcome of the loop body at lines 42-70: the registry after
the entry (`atoms` may gain one descriptor), the entry as left in the
caller's array (its `get` field is reassigned in place at line 49), the
resolved key used for `$[key]`/`setters[key]`, and the bound `_atom`. -/
structure ProcResult where
  reg : Registry
  entry : Entry
  key : String
  atom : Atom
  deriving Repr

/-- Loop body of `Injection` for one entry `v` (lines 42-66 of
`src/index.jsx`).

* `is(Object)(v) && has("get")(v)` (line 46): the spec's `get` field is
  replaced in place by a wrapper (line 49); if `atoms[key]` is nil a
  selector capturing the already-wrapped `get` is registered (line 54).
* Otherwise (lines 56-65): `res = is(Object)(v) ? v : {key: v, default: null}`;
  if `atoms[key]` is nil an atom is registered with default `_default`,
  the local variable declared `null` at line 44 and never reassigned —
  `res.default` is ignored.  Note there is no `has("id")` branch in this
  file: entries carrying an `id` fall through here like any other object.

In every branch `_atom = atoms[key]` after the conditional registration. -/
def processEntry (reg : Registry) (v : Entry) : ProcResult :=
  match v with
  | .objEntry o =>
    match o.getf with
    | some g =>
        let o' : EntryObj := { o with getf := some (.wrapped g) }
        match lookupA reg o.key with
        | some a => { reg := reg, entry := .objEntry o', key := o.key, atom := a }
        | none =>
            let a : Atom := .computed o.key (.wrapped g)
            { reg := upsertA reg o.key a, entry := .objEntry o', key := o.key, atom := a }
    | none =>
        match lookupA reg o.key with
        | some a => { reg := reg, entry := v, key := o.key, atom := a }
        | none =>
            let a : Atom := .leaf o.key .null
            { reg := upsertA reg o.key a, entry := v, key := o.key, atom := a }
  | .strKey s =>
        match lookupA reg s with
        | some a => { reg := reg, entry := v, key := s, atom := a }
        | none =>
            let a : Atom := .leaf s .null
            { reg := upsertA reg s a, entry := v, key := s, atom := a }

/-- Result of running the whole `Injection` loop over the spec array:
final registry, the (possibly mutated) spec array the caller still holds,
and the `$[key] = val; setters[key] = set` assignments in loop order
(lines 67-69), recorded as (key, bound atom) pairs. -/
structure InjectResult where
  reg : Registry
  entries : List Entry
  bindings : List (String × Atom)
  deriving Repr

/-- The `for (let v of _atoms)` loop of `Injection` (lines 42-70). -/
def processEntries (reg : Registry) : List Entry → InjectResult
  | [] => { reg := reg, entries := [], bindings := [] }
  | v :: rest =>
      let r := processEntry reg v
      let rec' := processEntries r.reg rest
      { reg := rec'.reg
        entries := r.entry :: rec'.entries
        bindings := (r.key, r.atom) :: rec'.bindings }

/-! ## The Recoil engine, as far as the spec's contract requires

The engine is an external collaborator (spec §6).  Only what the claims
need is modelled: a scope's store maps atom keys to committed values, and
a leaf atom reads the store entry or falls back to its default. -/

/-- A scope's committed cell values, keyed by atom key.
Modelled from the spec: the external engine's per-scope value state
(spec §6, "subscribe a component to a cell and get back (currentValue,
setterFunction)"). -/
abbrev Store : Type := List (String × Value)

/-- Modelled from the spec: the current value the engine reports for a
cell.  A leaf atom yields the scope store's entry if one was committed,
else the atom's default.  Computed cells are evaluated by the engine from
their derivation; no claim below reads a computed cell's value, so that
case is left at the absent sentinel. -/
def atomValue (store : Store) : Atom → Value
  | .leaf k d => (lookupA store k).getD d
  | .computed _ _ => .undefinedV

/-- The `$` object built by the loop (line 68): `$[key] = val` for each
binding in order, reading each bound atom's current value. -/
def dollarOf (store : Store) (bindings : List (String × Atom)) :
    List (String × Value) :=
  bindings.foldl (fun m kv => upsertA m kv.1 (atomValue store kv.2)) []

/-! ## Provider-side registration (`Roid`, lines 17-35) -/

/-- The `defaults` loop in `Roid`'s `Path` (lines 20-27): for each key `k`
of `defaults`, if `atoms[k]` is nil, register `atom({key: k, default:
defaults[k]})`.  Existing descriptors are never overwritten. -/
def roidRegister (reg : Registry) (defaults : List (String × Value)) : Registry :=
  defaults.foldl
    (fun r kv =>
      match lookupA r kv.1 with
      | some _ => r
      | none => upsertA r kv.1 (.leaf kv.1 kv.2))
    reg

/-- Default value of `Roid`'s `override` prop (line 17), forwarded to
`RecoilRoot` (line 31): `true`, i.e. an isolated scope. -/
def roidDefaultOverride : Bool := true

/-! ## The per-render runtime: `$`, `setters`, `updated`, `get`, `set` -/

/-- The closure state of one `Injection` render: the `$` snapshot, the
`setters` object (key → bound atom, standing for the Recoil setter of that
atom), the `updated` shadow map (line 41), and the scope's engine store
that the setters commit to. -/
structure RT where
  dollar : List (String × Value)
  setters : List (String × Atom)
  updated : List (String × Value)
  store : Store
  deriving DecidableEq, Repr

/-- `get` (lines 72-73): `typeof updated[key] !== "undefined" ?
updated[key] : $[key]`.  A shadow entry holding `undefined` is
indistinguishable from an absent one under the `typeof` test. -/
def rtGet (rt : RT) (key : String) : Value :=
  if jsIndex rt.updated key ≠ .undefinedV then jsIndex rt.updated key
  else jsIndex rt.dollar key

/-- `set` (lines 75-78): first `updated[key] = val`, then
`setters[key](val)`.  When no setter was registered for `key`,
`setters[key]` is `undefined` and the call throws a `TypeError`
(modelled as `Except.error`); the shadow write is not rolled back.
On success the engine store receives the value under the bound atom's
key. -/
def rtSet (rt : RT) (val : Value) (key : String) : RT × Except Unit Unit :=
  let rt1 : RT := { rt with updated := upsertA rt.updated key val }
  match lookupA rt1.setters key with
  | some a => ({ rt1 with store := upsertA rt1.store a.key val }, .ok ())
  | none => (rt1, .error ())

/-! ## The reactive function wrapper `fn` (lines 80-81) -/

/-- The capability bag fields that depend on the call arguments:
`args` and `val`.  (`get`, `set`, `refs`, `fn` are the closures of the
enclosing render, modelled by threading `RT`.) -/
structure CallBag where
  args : List Value
  val : Value
  deriving DecidableEq, Repr

/-- The bag the wrapper builds at line 81:
`{args, val: args[0] || {}, get, set, refs, fn}`.  `args[0]` on an empty
argument list is `undefined`; `||` replaces any falsy first argument by a
fresh `{}`. -/
def mkBag (args : List Value) : CallBag :=
  { args := args, val := jsOr (args.headD .undefinedV) emptyObj }

/-- `fn(func)(...args)` (lines 80-81): the returned callable invokes
`func` once, passing the bag together with the enclosing render's
`get`/`set`/`fn` closures — so a nested `fn`-wrapped call shares the same
shadow map.  Plain functions are modelled as state transformers on `RT`
receiving the bag. -/
def fnInvoke (func : CallBag → RT → RT) (args : List Value) (rt : RT) : RT :=
  func (mkBag args) rt

/-- The sequence of invocations of `func` that one call of the returned
callable performs (line 81 contains exactly one call to `func`, with the
bag built there). -/
def fnCallLog (args : List Value) : List CallBag := [mkBag args]

/-! ## Two sibling isolated scopes

Modelled from the spec: `RecoilRoot` with `override = true` is the
external engine's isolation primitive (spec §6, "a root boundary primitive
supporting isolated vs inherited value scoping for a subtree"); each
isolated scope owns an independent store of cell values, while the
`atoms` registry stays process-wide. -/
structure TwoScopes where
  reg : Registry
  store1 : Store
  store2 : Store
  deriving Repr

/-- A committed write performed by a component inside the first scope:
its `useRecoilState` setter targets the store of the `RecoilRoot` it is
mounted under. -/
def writeScope1 (ts : TwoScopes) (key : String) (val : Value) : TwoScopes :=
  { ts with store1 := upsertA ts.store1 key val }

/-- The value a component inside the second scope observes for `key`:
the shared registry's descriptor read against the second scope's store. -/
def readScope2 (ts : TwoScopes) (key : String) : Value :=
  match lookupA ts.reg key with
  | some a => atomValue ts.store2 a
  | none => .undefinedV

/-! ## Registration events and scenario constants -/

/-- A registration that can touch the process-wide `atoms` registry:
either a provider mounting with `defaults` (lines 20-27) or an
`Injection` render processing a spec array (lines 42-70). -/
inductive RegEvent where
  | provider : List (String × Value) → RegEvent
  | injection : List Entry → RegEvent

/-- The effect of one registration event on the registry. -/
def applyRegEvent (reg : Registry) : RegEvent → Registry
  | .provider ds => roidRegister reg ds
  | .injection es => (processEntries reg es).reg

/-- JS numeric coercion as used in the §8.6 scenario (only ever applied
to numbers there). -/
def asNum : Value → Int
  | .num n => n
  | _ => 0

/-- The plain function `B` of scenario §8.6:
`({get, set}) => set(get("counter") * 3, "counter")`. -/
def chainB : CallBag → RT → RT := fun _ rt =>
  (rtSet rt (.num (asNum (rtGet rt "counter") * 3)) "counter").1

/-- The plain function `A` of scenario §8.6:
`({get, set, fn}) => { set(get("counter") + 2, "counter"); fn(B)() }`. -/
def chainA : CallBag → RT → RT := fun _ rt =>
  fnInvoke chainB [] (rtSet rt (.num (asNum (rtGet rt "counter") + 2)) "counter").1

/-- The bodies of `A` and `B` inlined in sequence, without the wrapper. -/
def chainInlined (rt : RT) : RT :=
  let rt1 := (rtSet rt (.num (asNum (rtGet rt "counter") + 2)) "counter").1
  (rtSet rt1 (.num (asNum (rtGet rt1 "counter") * 3)) "counter").1

/-- Render state of a component injected with a `counter` cell whose
current value is `0`: `$ = {counter: 0}`, a setter for `counter`, an
empty shadow map, an empty engine store. -/
def rtCounter0 : RT :=
  { dollar := [("counter", .num 0)]
    setters := [("counter", .leaf "counter" (.num 0))]
    updated := []
    store := [] }

/-- Render state used for the `C2` counterexample: `k` injected with the
(code's) `null` default and nothing written yet. -/
def rtNullK : RT :=
  { dollar := [("k", .null)]
    setters := [("k", .leaf "k" .null)]
    updated := []
    store := [] }

/-- One render of an injected component acting on the registry and on the
caller's spec array: `inject(atoms, Component)` closes over the array
(lines 86-88), so every render's `Injection` loop walks the same, already
mutated, objects. -/
def renderStep (p : Registry × List Entry) : Registry × List Entry :=
  ((processEntries p.1 p.2).reg, (processEntries p.1 p.2).entries)

/-- `g` wrapped `n` times by the line-49 wrapper. -/
def wrapN : Nat → GetFn → GetFn
  | 0, g => g
  | n + 1, g => .wrapped (wrapN n g)

/-- The `get` capability handed to a derivation function by the wrapper
built at lines 49-53: `v2 => !isNil(atoms[v2]) && is(String)(v2) ?
get(atoms[v2]) : get(v2)`.  `engGet` is the engine's `get` applied to a
registered descriptor, `extGet` the engine's `get` applied to the raw
argument (a direct external cell reference). -/
def selGet (reg : Registry) (engGet : Atom → Value) (extGet : Value → Value)
    (v2 : Value) : Value :=
  match lookupA reg (toPropKey v2), isString v2 with
  | some a, true => engGet a
  | _, _ => extGet v2

/-! ## Helper lemmas -/

theorem processEntry_preserves (reg : Registry) (v : Entry) (k : String)
    (a : Atom) (h : lookupA reg k = some a) :
    lookupA (processEntry reg v).reg k = some a := by
  have hne : ∀ k' : String, lookupA reg k' = none → k ≠ k' := by
    intro k' hk' hkk
    rw [hkk, hk'] at h
    exact Option.noConfusion h
  cases v with
  | strKey s =>
      cases hl : lookupA reg s with
      | some b => simpa [processEntry, hl] using h
      | none => simp [processEntry, hl, lookupA_upsertA, hne s hl, h]
  | objEntry o =>
      cases hg : o.getf with
      | some g =>
          cases hl : lookupA reg o.key with
          | some b => simpa [processEntry, hg, hl] using h
          | none => simp [processEntry, hg, hl, lookupA_upsertA, hne o.key hl, h]
      | none =>
          cases hl : lookupA reg o.key with
          | some b => simpa [processEntry, hg, hl] using h
          | none => simp [processEntry, hg, hl, lookupA_upsertA, hne o.key hl, h]

theorem processEntries_preserves (es : List Entry) (reg : Registry)
    (k : String) (a : Atom) (h : lookupA reg k = some a) :
    lookupA (processEntries reg es).reg k = some a := by
  induction es generalizing reg with
  | nil => simpa [processEntries] using h
  | cons v rest ih =>
      simp only [processEntries]
      exact ih _ (processEntry_preserves reg v k a h)

theorem roidRegister_preserves (ds : List (String × Value)) (reg : Registry)
    (k : String) (a : Atom) (h : lookupA reg k = some a) :
    lookupA (roidRegister reg ds) k = some a := by
  induction ds generalizing reg with
  | nil => simpa [roidRegister] using h
  | cons d rest ih =>
      simp only [roidRegister, List.foldl_cons]
      cases hl : lookupA reg d.1 with
      | some b => exact ih reg h
      | none =>
          have hkd : k ≠ d.1 := by
            intro hkk
            rw [hkk, hl] at h
            exact Option.noConfusion h
          exact ih _ (by simp [lookupA_upsertA, hkd, h])

theorem applyRegEvent_preserves (reg : Registry) (ev : RegEvent)
    (k : String) (a : Atom) (h : lookupA reg k = some a) :
    lookupA (applyRegEvent reg ev) k = some a := by
  cases ev with
  | provider ds => exact roidRegister_preserves ds reg k a h
  | injection es => exact processEntries_preserves es reg k a h

theorem wrapN_wrapped (n : Nat) (g : GetFn) :
    wrapN n (.wrapped g) = wrapN (n + 1) g := by
  induction n with
  | zero => rfl
  | succ n ih => simp [wrapN, ih]

/-! ## Claims -/

/-- C1.  The claim says an injection entry `{key, default: d}` on a fresh
key creates a leaf cell whose initial value is `d`.  The code does not:
the atom is created with the local `_default`, which is declared `null`
at line 44 and never assigned from the spec object, so
`inject([{key: "state_2", default: 2}])` yields a cell whose value is
`null`, not `2` — contradicting the README ("You can specify initial
values ... `{key: "state_1", default: 1}`"). -/
theorem C1_injected_default_is_ignored :
    (processEntry [] (.objEntry { key := "state_2", dflt := some (.num 2) })).atom
        = Atom.leaf "state_2" Value.null ∧
    atomValue []
        (processEntry [] (.objEntry { key := "state_2", dflt := some (.num 2) })).atom
        = Value.null ∧
    Value.null ≠ Value.num 2 := by
  refine ⟨rfl, rfl, ?_⟩
  decide

/-- C2 counterexample.  The claim quantifies over every value `v`, but the
shadow map is consulted through `typeof updated[key] !== "undefined"`
(line 73): writing `undefined` to an injected key whose current value is
`null` is not observed — `get` returns `null`. -/
theorem C2_undefined_write_not_observed :
    rtGet ((rtSet rtNullK Value.undefinedV "k").1) "k" = Value.null ∧
    Value.null ≠ Value.undefinedV := by
  refine ⟨?_, by decide⟩
  decide

/-- C2 (amended: for every value `v` other than `undefined`).  For an
injected key `k`, within one synchronous call chain `set(v, k)` succeeds
and a subsequent `get(k)` returns `v` through the shadow map, before any
engine propagation. -/
theorem C2_read_after_write (rt : RT) (k : String) (v : Value)
    (hinj : (lookupA rt.setters k).isSome = true) (hv : v ≠ .undefinedV) :
    (rtSet rt v k).2 = .ok () ∧ rtGet ((rtSet rt v k).1) k = v := by
  cases hl : lookupA rt.setters k with
  | none => rw [hl] at hinj; simp at hinj
  | some a =>
      constructor
      · simp [rtSet, hl]
      · simp [rtSet, hl, rtGet, jsIndex, lookupA_upsertA, hv]

/-- Witness for `C2_read_after_write`. -/
theorem C2_read_after_write_witness :
    (rtSet rtNullK (Value.num 5) "k").2 = .ok () ∧
    rtGet ((rtSet rtNullK (Value.num 5) "k").1) "k" = Value.num 5 :=
  C2_read_after_write rtNullK "k" (Value.num 5) (by decide) (by decide)

/-- C3.  Once the registry holds a descriptor for `k`, any sequence of
later registrations — provider defaults or injection specs of any shape —
leaves that descriptor unchanged; concretely, registering `k` through a
provider with default `1` and then injecting `k` with default `2` yields
current value `1`. -/
theorem C3_first_registration_wins (reg : Registry) (k : String) (a : Atom)
    (evs : List RegEvent) (h : lookupA reg k = some a) :
    lookupA (evs.foldl applyRegEvent reg) k = some a ∧
    jsIndex
        (dollarOf []
          (processEntries (roidRegister [] [("k", Value.num 1)])
            [.objEntry { key := "k", dflt := some (Value.num 2) }]).bindings)
        "k" = Value.num 1 := by
  constructor
  · induction evs generalizing reg with
    | nil => simpa using h
    | cons ev rest ih =>
        rw [List.foldl_cons]
        exact ih _ (applyRegEvent_preserves reg ev k a h)
  · decide

/-- Witness for `C3_first_registration_wins`. -/
theorem C3_first_registration_wins_witness :
    lookupA
        (List.foldl applyRegEvent [("k", Atom.leaf "k" (Value.num 1))]
          [RegEvent.injection [.objEntry { key := "k", dflt := some (Value.num 2) }]])
        "k" = some (Atom.leaf "k" (Value.num 1)) ∧
    jsIndex
        (dollarOf []
          (processEntries (roidRegister [] [("k", Value.num 1)])
            [.objEntry { key := "k", dflt := some (Value.num 2) }]).bindings)
        "k" = Value.num 1 :=
  C3_first_registration_wins [("k", Atom.leaf "k" (Value.num 1))] "k"
    (Atom.leaf "k" (Value.num 1))
    [RegEvent.injection [.objEntry { key := "k", dflt := some (Value.num 2) }]]
    (by decide)

/-- C4.  `fn(f)(...args)` invokes `f` with the very `get`/`set`/`fn`
closures of the enclosing render (first conjunct, for every plain
function), so a wrapped function calling a second wrapped function shares
the shadow map with it; concretely, from `counter = 0`, `A` setting
`get(counter)+2` and then invoking wrapped `B`, which sets
`get(counter)*3`, is state-for-state the same as inlining both bodies and
leaves `counter = 6` both in the shadow map and in the engine store. -/
theorem C4_chained_fn_equals_inlined :
    (∀ (f : CallBag → RT → RT) (args : List Value) (rt : RT),
        fnInvoke f args rt = f (mkBag args) rt) ∧
    fnInvoke chainA [] rtCounter0 = chainInlined rtCounter0 ∧
    rtGet (fnInvoke chainA [] rtCounter0) "counter" = Value.num 6 ∧
    jsIndex (fnInvoke chainA [] rtCounter0).store "counter" = Value.num 6 := by
  refine ⟨fun f args rt => rfl, ?_, ?_, ?_⟩ <;> decide

/-- C5 counterexample.  In `src/index.jsx` there is no `has("id")`
branch: injecting `[{key: "a", id: 1}, {key: "a", id: 2}]` on a fresh
registry binds both entries to the one leaf atom `"a"`, `$` has no
`"a.1"` entry, and committing `9` through the first entry's setter makes
the second entry observe `9` — the two injections are not independent. -/
theorem C5_id_entries_not_independent :
    (processEntries []
        [.objEntry { key := "a", id := some (.num 1) },
         .objEntry { key := "a", id := some (.num 2) }]).bindings
      = [("a", Atom.leaf "a" .null), ("a", Atom.leaf "a" .null)] ∧
    lookupA
        (dollarOf []
          (processEntries []
            [.objEntry { key := "a", id := some (.num 1) },
             .objEntry { key := "a", id := some (.num 2) }]).bindings)
        "a.1" = none ∧
    atomValue (upsertA [] "a" (Value.num 9)) (Atom.leaf "a" .null)
      = Value.num 9 ∧
    Value.num 9 ≠ Value.null := by
  refine ⟨rfl, rfl, rfl, ?_⟩
  decide

/-- C5 (amended).  The exported module ignores `id`: two entries
`{key, id: i1}` and `{key, id: i2}` both resolve through the plain-object
branch to one shared leaf cell keyed `key`, `$` carries a single entry
under `key`, and a value committed through either entry's setter is the
value observed under the other. -/
theorem C5_id_entries_share_one_cell (k : String) (i1 i2 : Value)
    (store : Store) (v : Value) :
    (processEntries []
        [.objEntry { key := k, id := some i1 },
         .objEntry { key := k, id := some i2 }]).bindings
      = [(k, Atom.leaf k .null), (k, Atom.leaf k .null)] ∧
    dollarOf store
        (processEntries []
          [.objEntry { key := k, id := some i1 },
           .objEntry { key := k, id := some i2 }]).bindings
      = [(k, (lookupA store k).getD .null)] ∧
    atomValue (upsertA store k v) (Atom.leaf k .null) = v := by
  refine ⟨?_, ?_, ?_⟩
  · simp [processEntries, processEntry, lookupA, lookupA_upsertA, upsertA]
  · simp [processEntries, processEntry, lookupA, lookupA_upsertA, upsertA,
      dollarOf, atomValue]
  · simp [atomValue, lookupA_upsertA]

/-- C6 counterexample.  The bag built at line 81 uses `args[0] || {}`,
not `args[0] ?? {}`: a falsy but non-nullish first argument such as `0`
is replaced by the empty object, so `val` is `{}` and not `0`. -/
theorem C6_falsy_first_arg_replaced :
    (mkBag [Value.num 0]).val = emptyObj ∧ emptyObj ≠ Value.num 0 := by
  refine ⟨rfl, ?_⟩
  decide

/-- C6 (amended).  `fn(f)(...callArgs)` invokes `f` exactly once, with a
bag whose `args` field is `callArgs` and whose `val` field is
`callArgs[0] || {}`: the first argument when truthy, the empty object
otherwise (so `0`, `""`, `false`, `null` and `undefined` all collapse to
`{}`). -/
theorem C6_bag_built_with_logical_or (args : List Value) :
    fnCallLog args = [mkBag args] ∧
    (mkBag args).args = args ∧
    (mkBag args).val
      = (if truthy (args.headD .undefinedV) then args.headD .undefinedV else emptyObj) := by
  exact ⟨rfl, rfl, rfl⟩

/-- C7.  The `get` capability handed to a derivation function resolves a
string argument naming a registered cell to that cell (line 52's
`get(atoms[v2])`); any other argument — a non-string, or a string with no
registered cell — is passed through unchanged to the engine's `get` as a
direct external cell reference. -/
theorem C7_derivation_get_resolution (reg : Registry) (engGet : Atom → Value)
    (extGet : Value → Value) (v2 : Value) :
    (∀ (s : String) (a : Atom), v2 = .str s → lookupA reg s = some a →
        selGet reg engGet extGet v2 = engGet a) ∧
    (isString v2 = false ∨ lookupA reg (toPropKey v2) = none →
        selGet reg engGet extGet v2 = extGet v2) := by
  constructor
  · rintro s a rfl hl
    simp [selGet, toPropKey, isString, hl]
  · rintro (h | h)
    · unfold selGet
      cases hl : lookupA reg (toPropKey v2) <;> simp [h, hl]
    · simp [selGet, h]

/-- Witness for `C7_derivation_get_resolution`. -/
theorem C7_derivation_get_resolution_witness :
    selGet [("x", Atom.leaf "x" (Value.num 7))] (atomValue []) (fun w => w)
        (Value.str "x") = Value.num 7 ∧
    selGet [("x", Atom.leaf "x" (Value.num 7))] (atomValue []) (fun w => w)
        (Value.str "y") = Value.str "y" := by
  constructor
  · have h := (C7_derivation_get_resolution [("x", Atom.leaf "x" (Value.num 7))]
        (atomValue []) (fun w => w) (Value.str "x")).1
        "x" (Atom.leaf "x" (Value.num 7)) rfl (by decide)
    rw [h]
    decide
  · exact (C7_derivation_get_resolution [("x", Atom.leaf "x" (Value.num 7))]
        (atomValue []) (fun w => w) (Value.str "y")).2 (Or.inr (by decide))

/-- C8.  `Roid`'s `override` prop defaults to `true`, so a scope is
isolated by default; two sibling isolated scopes own independent stores
(the registry mapping stays process-wide), hence no sequence of committed
writes performed inside the first scope changes the value any key is
observed to have inside the second scope. -/
theorem C8_sibling_isolated_scopes_independent (ts : TwoScopes) (k : String)
    (ws : List (String × Value)) :
    roidDefaultOverride = true ∧
    readScope2 (ws.foldl (fun t kv => writeScope1 t kv.1 kv.2) ts) k
      = readScope2 ts k := by
  refine ⟨rfl, ?_⟩
  induction ws generalizing ts with
  | nil => rfl
  | cons w rest ih =>
      rw [List.foldl_cons, ih]
      rfl

/-- C9.  For a key `k` that was not injected, `set(v, k)` writes the
shadow map first (line 76) and only then calls `setters[k](v)` (line 77),
which throws because `setters[k]` is `undefined`; the shadow entry stays,
nothing reaches the engine store, and — since a non-injected key also has
no `$[k]` entry — a caught failure leaves `get(k)` returning `v` in the
same render: `set` is not atomic on error. -/
theorem C9_set_writes_shadow_then_throws (rt : RT) (k : String) (v : Value)
    (hs : lookupA rt.setters k = none) (hd : lookupA rt.dollar k = none) :
    (rtSet rt v k).2 = .error () ∧
    lookupA (rtSet rt v k).1.updated k = some v ∧
    (rtSet rt v k).1.store = rt.store ∧
    rtGet ((rtSet rt v k).1) k = v := by
  refine ⟨by simp [rtSet, hs], by simp [rtSet, hs, lookupA_upsertA],
    by simp [rtSet, hs], ?_⟩
  by_cases hv : v = Value.undefinedV
  · subst hv
    simp [rtSet, hs, rtGet, jsIndex, lookupA_upsertA, hd]
  · simp [rtSet, hs, rtGet, jsIndex, lookupA_upsertA, hv]

/-- Witness for `C9_set_writes_shadow_then_throws`. -/
theorem C9_set_writes_shadow_then_throws_witness :
    (rtSet rtCounter0 (Value.num 1) "missing").2 = .error () ∧
    lookupA (rtSet rtCounter0 (Value.num 1) "missing").1.updated "missing"
      = some (Value.num 1) ∧
    (rtSet rtCounter0 (Value.num 1) "missing").1.store = rtCounter0.store ∧
    rtGet ((rtSet rtCounter0 (Value.num 1) "missing").1) "missing"
      = Value.num 1 :=
  C9_set_writes_shadow_then_throws rtCounter0 "missing" (Value.num 1)
    (by decide) (by decide)

/-- C10.  An injection entry carrying a `get` property is mutated in
place on every render (line 49 reassigns `v.get` before any registry
check), so after `n` renders the object the caller still holds carries
the original derivation function wrapped `n` times. -/
theorem C10_spec_object_rewrapped_each_render (n : Nat) (reg : Registry)
    (o : EntryObj) (g : GetFn) (h : o.getf = some g) :
    (renderStep^[n] (reg, [Entry.objEntry o])).2
      = [Entry.objEntry { o with getf := some (wrapN n g) }] := by
  induction n generalizing reg o g with
  | zero =>
      cases o
      simp [Function.iterate_zero, wrapN]
      simp_all
  | succ n ih =>
      rw [Function.iterate_succ_apply]
      have hstep : renderStep (reg, [Entry.objEntry o])
          = ((processEntry reg (Entry.objEntry o)).reg,
             [Entry.objEntry { o with getf := some (.wrapped g) }]) := by
        cases hl : lookupA reg o.key <;>
          simp [renderStep, processEntries, processEntry, h, hl]
      rw [hstep, ih _ _ _ rfl, wrapN_wrapped]

/-- Witness for `C10_spec_object_rewrapped_each_render`. -/
theorem C10_spec_object_rewrapped_each_render_witness :
    (renderStep^[2]
        (([] : Registry),
         [Entry.objEntry { key := "c", getf := some (.orig 0) }])).2
      = [Entry.objEntry
          { key := "c", getf := some (.wrapped (.wrapped (.orig 0))) }] := by
  have h := C10_spec_object_rewrapped_each_render 2 []
    { key := "c", getf := some (.orig 0) } (.orig 0) rfl
  rw [h]
  rfl

end Roidjs
